import Mathlib

/-!
Shallow embedding of the Zote language implementation (tree-walking
interpreter + bytecode compiler/VM), covering the numeric-operation module
`vm/src/interpreter/num_ops.rs`, the code-generation module
`vm/src/compiler/code_gen.rs`, and the tree-walker driver
`src/interpreter.rs`.

Machine integers (`i64`, `u64`, `u8`, `u32`) are modelled as `Int`/`Nat`
with wrapping (`% 2^w`) made explicit exactly where the Rust code can wrap
or truncate.  `f64` payloads are modelled by `Rat`: every float operation a
claim inspects (comparison with `0.0`, promotion casts from `i64`/`bool`)
is exact on this carrier; `powf` on non-integer exponents is abstracted
(see `qPowf`).
-/

namespace Zote

/-- Runtime value of the VM.  Modelled from the spec: `vm/src/value.rs` is
not among the provided sources; §3 of the spec lists the variants
(Nil, Bool, Int(i64), Float(f64), List, String, Function/Closure, and the
one-slot indirection cell Pointer).  `list` and `str` stand in for the
non-numeric heap variants reached only by the catch-all arms of the
numeric code; `pointer v` is a cell whose `get_clone()` yields `v`. -/
inductive Value where
  | nil : Value
  | bool : Bool → Value
  | int : Int → Value
  | float : Rat → Value
  | str : String → Value
  | list : List Value → Value
  | pointer : Value → Value

/-- Result of a fallible numeric operation: `RunRes<T> = Result<T, RuntimeError>`
from `vm/src/error.rs` (not under `src/`); `err` is a runtime error carrying
its message (`RunRes::new_err` / `RuntimeError::bare_error`, located later by
the VM per spec §4.5), and `panic` models a Rust `panic!`/`todo!`. -/
inductive Res (α : Type) where
  | ok : α → Res α
  | err : String → Res α
  | panic : String → Res α

/-- Embedding of `x == NIL` test used by `promote`.  Modelled from the spec §4.1:
`Nil == Nil` is true and `Nil == x` is false otherwise. -/
def Value.isNil : Value → Bool
  | .nil => true
  | .bool _ => false
  | .int _ => false
  | .float _ => false
  | .str _ => false
  | .list _ => false
  | .pointer _ => false

/-- Embedding of `{:?}` debug formatting of a value (derived `Debug` on the missing
`Value` enum; modelled from the spec's variant table §3).  Only the
promote catch-all error message embeds it, and no claim inspects that
message's text, only its equality across pointer unwrapping. -/
def Value.debugFmt : Value → String
  | .nil => "Nil"
  | .bool b => "Bool(" ++ toString b ++ ")"
  | .int n => "Int(" ++ toString n ++ ")"
  | .float q => "Float(" ++ toString q.num ++ "/" ++ toString q.den ++ ")"
  | .str s => "String(" ++ s ++ ")"
  | .list vs => "List(" ++ toString vs.length ++ " values)"
  | .pointer v => "Pointer(" ++ v.debugFmt ++ ")"

/-- Embedding of `Value::type_of` (missing `value.rs`; modelled from the spec's variant
names).  Only the `negate` catch-all embeds it. -/
def Value.typeOf : Value → String
  | .nil => "Nil"
  | .bool _ => "Bool"
  | .int _ => "Int"
  | .float _ => "Float"
  | .str _ => "String"
  | .list _ => "List"
  | .pointer _ => "Pointer"

/-- Rust `bool as i64`. -/
def boolToInt (b : Bool) : Int := if b then 1 else 0

/-- Rust `i64 as f64` under the `Rat` carrier (exact for the integers the
claims touch; IEEE rounding above 2^53 is not observable by any claim). -/
def intToFloat (n : Int) : Rat := (n : Rat)

/-- Rust `u64 as i64` (wraps modulo 2^64 into the signed range). -/
def u64ToI64 (n : Nat) : Int :=
  if n % 2 ^ 64 < 2 ^ 63 then ((n % 2 ^ 64 : Nat) : Int)
  else ((n % 2 ^ 64 : Nat) : Int) - 2 ^ 64

/-- Two's-complement wrap of an integer into the `i64` range, the release-mode
result of an overflowing `i64` arithmetic operation. -/
def wrap64 (z : Int) : Int := (z + 2 ^ 63) % 2 ^ 64 - 2 ^ 63

/-- Embedding of `f64::rem_euclid` on the exact carrier: result in `[0, |y|)` for `y ≠ 0`. -/
def qRemEuclid (x y : Rat) : Rat := x - |y| * (⌊x / |y|⌋ : Int)

/-- Abstraction of `f64::powf`.  Exact (up to IEEE rounding) for integer
exponents — the only exponents produced by `power`'s `Int` branch; no claim
inspects its value on other exponents, where an arbitrary total extension
(0) is used. -/
def qPowf (x y : Rat) : Rat :=
  if y.den = 1 then
    (if 0 ≤ y.num then x ^ y.num.toNat else (x ^ (-y.num).toNat)⁻¹)
  else 0

/-- Embedding of `promote` from `vm/src/interpreter/num_ops.rs` lines 9–36: the pairwise
numeric-promotion rule.  Arms are in source order; the two `Pointer` arms
recurse on the cell contents. -/
def promote (x y : Value) : Res (Value × Value) :=
  if x.isNil || y.isNil then
    .err "Numerical operations cannot operate on Nil values"
  else
    match x, y with
    | .bool a, .bool b => .ok (.int (boolToInt a), .int (boolToInt b))
    | .bool a, .float b => .ok (.float (intToFloat (boolToInt a)), .float b)
    | .bool a, .int b => .ok (.int (boolToInt a), .int b)
    | .float a, .bool b => .ok (.float a, .float (intToFloat (boolToInt b)))
    | .float a, .float b => .ok (.float a, .float b)
    | .float a, .int b => .ok (.float a, .float (intToFloat b))
    | .int a, .bool b => .ok (.int a, .int (boolToInt b))
    | .int a, .float b => .ok (.float (intToFloat a), .float b)
    | .int a, .int b => .ok (.int a, .int b)
    | .pointer a, b => promote a b
    | a, .pointer b => promote a b
    | a, b =>
        .err ("Numerical promotion not supported for " ++ a.debugFmt
              ++ " and " ++ b.debugFmt)
termination_by sizeOf x + sizeOf y
decreasing_by all_goals simp_wf

/-- Embedding of `add` (num_ops.rs 38–44).  The `i64` sum wraps on overflow in release
builds (debug builds panic; no claim distinguishes the two). -/
def add (x y : Value) : Res Value :=
  match promote x y with
  | .ok (.float a, .float b) => .ok (.float (a + b))
  | .ok (.int a, .int b) => .ok (.int (wrap64 (a + b)))
  | .ok (_, _) => .panic "Internal error with promote arms"
  | .err m => .err m
  | .panic m => .panic m

/-- Embedding of `sub` (num_ops.rs 46–52). -/
def sub (x y : Value) : Res Value :=
  match promote x y with
  | .ok (.float a, .float b) => .ok (.float (a - b))
  | .ok (.int a, .int b) => .ok (.int (wrap64 (a - b)))
  | .ok (_, _) => .panic "Internal error with promote arms"
  | .err m => .err m
  | .panic m => .panic m

/-- Embedding of `mult` (num_ops.rs 54–60). -/
def mult (x y : Value) : Res Value :=
  match promote x y with
  | .ok (.float a, .float b) => .ok (.float (a * b))
  | .ok (.int a, .int b) => .ok (.int (wrap64 (a * b)))
  | .ok (_, _) => .panic "Internal error with promote arms"
  | .err m => .err m
  | .panic m => .panic m

/-- Embedding of `div` (num_ops.rs 62–72).  `bool::then_some` evaluates its
argument eagerly, so in the `Int` arm `x / y` runs before the `y != 0` test
is consulted: with `y == 0` the `i64` division panics ("attempt to divide by
zero", every build profile) and the `ok_or_else` closure building
"Division by zero." is dead code; with `y != 0` the lone overflow pair
`(i64::MIN, -1)` panics, otherwise the quotient truncates toward zero
(`Int.tdiv`).  In the `Float` arm the eager `x / y` is harmless
(`f64` division by zero is `inf`, discarded), so a zero divisor does reach
the "Division by zero." error there. -/
def div (x y : Value) : Res Value :=
  match promote x y with
  | .ok (.float a, .float b) =>
      if b ≠ 0 then .ok (.float (a / b)) else .err "Division by zero."
  | .ok (.int a, .int b) =>
      if b = 0 then .panic "attempt to divide by zero"
      else if a = -2 ^ 63 ∧ b = -1 then .panic "attempt to divide with overflow"
      else .ok (.int (Int.tdiv a b))
  | .ok (_, _) => .panic "Internal error with promote arms"
  | .err m => .err m
  | .panic m => .panic m

/-- Embedding of `modulo` (num_ops.rs 74–84).  As in `div`, the
`bool::then_some` argument `x.rem_euclid(y)` is evaluated eagerly in the
`Int` arm: with `y == 0` it panics ("attempt to calculate the remainder
with a divisor of zero", every build profile) before the "Modulo by zero."
error can be built; with `y != 0` it panics on the overflow pair
`(i64::MIN, -1)` and otherwise equals the Euclidean remainder `Int.emod`
(Lean's `%` on `Int`).  The `Float` arm's eager `f64::rem_euclid(0.0)` is a
harmless `NaN`, so its zero divisor does reach "Modulo by zero.". -/
def modulo (x y : Value) : Res Value :=
  match promote x y with
  | .ok (.float a, .float b) =>
      if b ≠ 0 then .ok (.float (qRemEuclid a b)) else .err "Modulo by zero."
  | .ok (.int a, .int b) =>
      if b = 0 then .panic "attempt to calculate the remainder with a divisor of zero"
      else if a = -2 ^ 63 ∧ b = -1 then
        .panic "attempt to calculate the remainder with overflow"
      else .ok (.int (a % b))
  | .ok (_, _) => .panic "Internal error with promote arms"
  | .err m => .err m
  | .panic m => .panic m

/-- Embedding of `power` (num_ops.rs 87–102).  For `Int` operands with `y ≥ 0` the code
computes `x.unsigned_abs().pow(y.unsigned_abs() as u32) as i64` — the `u32`
cast truncates the exponent mod 2^32, `u64::pow` wraps mod 2^64 on overflow
(release builds), and the `as i64` cast wraps into the signed range — then
negates when `x < 0` and `y` is odd (`i64` negation wrapping at `i64::MIN`).
The source marks this overflow behaviour with an `ERROR`/`TODO` comment. -/
def power (x y : Value) : Res Value :=
  match promote x y with
  | .ok (.float a, .float b) => .ok (.float (qPowf a b))
  | .ok (.int a, .int b) =>
      if 0 ≤ b then
        let safeX : Nat := a.natAbs
        let pow : Int := u64ToI64 ((safeX ^ (b.natAbs % 2 ^ 32)) % 2 ^ 64)
        if 0 ≤ a ∨ b % 2 = 0 then .ok (.int pow) else .ok (.int (wrap64 (-pow)))
      else .ok (.float (qPowf (intToFloat a) (intToFloat b)))
  | .ok (_, _) => .panic "Internal error with promote arms"
  | .err m => .err m
  | .panic m => .panic m

/-- Embedding of `negate` (num_ops.rs 104–113).  Note the `Pointer` arm is a `panic!`,
not a recursive unwrap.  (`i64` negation of the in-range payload can only
overflow at `i64::MIN`, where release builds wrap.) -/
def negate (x : Value) : Res Value :=
  match x with
  | .nil => .err "Cannot negate Nil"
  | .bool b => .ok (.int (-(boolToInt b)))
  | .float q => .ok (.float (-q))
  | .int n => .ok (.int (wrap64 (-n)))
  | .pointer _ => .panic "We should never operate on value pointers"
  | v => .err ("Cannot negate a " ++ v.typeOf)

/-- Spec-side classifier: the operands the claim calls numeric
(`Bool`, `Int`, or `Float`). -/
def Value.isNumeric : Value → Bool
  | .bool _ => true
  | .int _ => true
  | .float _ => true
  | _ => false

/-- Spec-side classifier: is the operand a `Float`? (top of the promotion
lattice `Bool ⊑ Int ⊑ Float`). -/
def Value.isFloatVal : Value → Bool
  | .float _ => true
  | _ => false

/-- The integer a numeric operand promotes to (`Bool` ↦ 0/1). -/
def Value.asInt : Value → Int
  | .bool b => boolToInt b
  | .int n => n
  | _ => 0

/-- The float a numeric operand promotes to (`Bool` ↦ 0.0/1.0, `Int` via
`as f64`). -/
def Value.asFloat : Value → Rat
  | .bool b => intToFloat (boolToInt b)
  | .int n => intToFloat n
  | .float q => q
  | _ => 0

theorem promote_nil_left (y : Value) :
    promote .nil y = .err "Numerical operations cannot operate on Nil values" := by
  cases y <;> (rw [promote.eq_def]; simp [Value.isNil])

theorem promote_nil_right (x : Value) :
    promote x .nil = .err "Numerical operations cannot operate on Nil values" := by
  cases x <;> (rw [promote.eq_def]; simp [Value.isNil])

theorem promote_pointer_left (x y : Value) :
    promote (.pointer x) y = promote x y := by
  cases y with
  | nil => rw [promote_nil_right, promote_nil_right]
  | _ => rw [promote.eq_def]; simp [Value.isNil]

theorem promote_pointer_right (x y : Value) : promote x (.pointer y) = promote x y :=
  match x with
  | .nil => by rw [promote_nil_left, promote_nil_left]
  | .pointer a => by
      rw [promote_pointer_left, promote_pointer_left, promote_pointer_right a y]
  | .bool b => by rw [promote.eq_def]; simp [Value.isNil]
  | .int n => by rw [promote.eq_def]; simp [Value.isNil]
  | .float q => by rw [promote.eq_def]; simp [Value.isNil]
  | .str s => by rw [promote.eq_def]; simp [Value.isNil]
  | .list vs => by rw [promote.eq_def]; simp [Value.isNil]

/-- C1 (counterexample): the claim's quoted error message is not the one the
code produces.  At the concrete input `(Nil, Int 0)`, `promote` returns a
runtime error whose message is "Numerical operations cannot operate on Nil
values", not "numerical operations cannot operate on nil". -/
theorem C1_counterexample :
    promote Value.nil (Value.int 0)
      ≠ Res.err "numerical operations cannot operate on nil" := by
  rw [promote_nil_left]
  intro h
  injection h with h
  exact absurd h (by decide)

/-- C1 (amended): for numeric operands (Bool, Int, Float — neither Nil nor
Pointer), `promote` returns Ok with both components promoted along
`Bool ⊑ Int ⊑ Float` (booleans to 0/1): `(Float, Float)` when either side is a
Float, `(Int, Int)` otherwise; and whenever either operand is Nil it returns
a runtime error with message "Numerical operations cannot operate on Nil
values". -/
theorem C1_promote_totality_and_nil_error :
    (∀ x y : Value, x.isNumeric = true → y.isNumeric = true →
        promote x y =
          if x.isFloatVal || y.isFloatVal then
            Res.ok (Value.float x.asFloat, Value.float y.asFloat)
          else
            Res.ok (Value.int x.asInt, Value.int y.asInt)) ∧
    (∀ x y : Value, x = Value.nil ∨ y = Value.nil →
        promote x y = Res.err "Numerical operations cannot operate on Nil values") := by
  constructor
  · intro x y hx hy
    cases x <;> cases y <;> simp_all [Value.isNumeric] <;>
      (rw [promote.eq_def];
       simp [Value.isNil, Value.isFloatVal, Value.asInt, Value.asFloat])
  · rintro x y (rfl | rfl)
    · exact promote_nil_left y
    · exact promote_nil_right x

/-- C1 (witness): the amended theorem applied at the concrete inputs
`(Bool true, Float 2)` (promotes to `(Float 1.0, Float 2.0)`) and
`(Nil, Int 0)` (the Nil error). -/
theorem C1_witness :
    promote (Value.bool true) (Value.float 2)
        = Res.ok (Value.float 1, Value.float 2) ∧
    promote Value.nil (Value.int 0)
        = Res.err "Numerical operations cannot operate on Nil values" := by
  constructor
  · have h := C1_promote_totality_and_nil_error.1 (Value.bool true) (Value.float 2)
      rfl rfl
    simpa [Value.isFloatVal, Value.asFloat, boolToInt, intToFloat] using h
  · exact C1_promote_totality_and_nil_error.2 Value.nil (Value.int 0) (Or.inl rfl)

/-- C2 (counterexample): the unary arithmetic op `negate` is NOT
pointer-transparent: at the concrete input `Pointer(Int 5)` it panics
("We should never operate on value pointers"), while `negate (Int 5)`
returns `Ok (Int (-5))`. -/
theorem C2_counterexample :
    negate (Value.pointer (Value.int 5)) ≠ negate (Value.int 5) := by
  simp [negate]

/-- C2 (amended): every binary arithmetic operation (add, sub, mult, div,
modulo, power) unwraps `Pointer` cells recursively on either operand,
giving the same result (same Ok value or same error) as on the unwrapped
value; `negate`, by contrast, panics on a Pointer operand instead of
unwrapping it. -/
theorem C2_pointer_transparency :
    (∀ x y : Value,
        (add (.pointer x) y = add x y ∧ add x (.pointer y) = add x y) ∧
        (sub (.pointer x) y = sub x y ∧ sub x (.pointer y) = sub x y) ∧
        (mult (.pointer x) y = mult x y ∧ mult x (.pointer y) = mult x y) ∧
        (div (.pointer x) y = div x y ∧ div x (.pointer y) = div x y) ∧
        (modulo (.pointer x) y = modulo x y ∧ modulo x (.pointer y) = modulo x y) ∧
        (power (.pointer x) y = power x y ∧ power x (.pointer y) = power x y)) ∧
    (∀ v : Value,
        negate (.pointer v) = .panic "We should never operate on value pointers") := by
  refine ⟨fun x y => ?_, fun v => rfl⟩
  refine ⟨⟨?_, ?_⟩, ⟨?_, ?_⟩, ⟨?_, ?_⟩, ⟨?_, ?_⟩, ⟨?_, ?_⟩, ⟨?_, ?_⟩⟩ <;>
    simp only [add, sub, mult, div, modulo, power,
      promote_pointer_left, promote_pointer_right]

/-- C3: evaluation at the failing input `(Int 5, Int 0)`.  `bool::then_some`
evaluates its argument eagerly, so with an `Int` zero divisor the program
panics inside `x / y` / `x.rem_euclid(y)` before the "Division by zero." /
"Modulo by zero." errors are ever constructed — a crash, not the located
error the claim (and spec §4.1/§8) requires.  With a `Float` zero divisor
(here via `(Float 1.0, Float 0.0)`) the eager argument is harmless and the
claimed errors are produced, so the claim's intent is met on the float half
only. -/
theorem C3_int_zero_divisor_panics :
    div (Value.int 5) (Value.int 0) = Res.panic "attempt to divide by zero" ∧
    modulo (Value.int 5) (Value.int 0)
      = Res.panic "attempt to calculate the remainder with a divisor of zero" ∧
    div (Value.float 1) (Value.float 0) = Res.err "Division by zero." ∧
    modulo (Value.float 1) (Value.float 0) = Res.err "Modulo by zero." := by
  refine ⟨?_, ?_, ?_, ?_⟩ <;>
    simp [div, modulo, promote.eq_def, Value.isNil]

/-- C4 (counterexample): at `x = i64::MIN = -2^63`, `y = -1` (a non-zero
divisor), `modulo` does not return `Ok (Int r)` with `0 ≤ r < |y|`:
`i64::rem_euclid` panics on that overflow pair. -/
theorem C4_counterexample :
    ¬ ∃ r : Int, modulo (Value.int (-(2 ^ 63))) (Value.int (-1))
        = Res.ok (Value.int r) ∧ 0 ≤ r ∧ r < |(-1 : Int)| := by
  have h : modulo (Value.int (-(2 ^ 63))) (Value.int (-1))
      = Res.panic "attempt to calculate the remainder with overflow" := by
    simp [modulo, promote.eq_def, Value.isNil]
  rintro ⟨r, hr, -⟩
  rw [h] at hr
  exact Res.noConfusion hr

/-- C4 (amended): for every `i64` value `x` and non-zero `i64` value `y`
other than the overflow pair `(i64::MIN, -1)`, `modulo (Int x) (Int y)`
returns `Ok (Int r)` with Euclidean semantics: `r = x mod y` and
`0 ≤ r < |y|`. -/
theorem C4_euclidean_modulo :
    ∀ x y : Int,
      -2 ^ 63 ≤ x → x < 2 ^ 63 → -2 ^ 63 ≤ y → y < 2 ^ 63 → y ≠ 0 →
      ¬(x = -2 ^ 63 ∧ y = -1) →
      modulo (Value.int x) (Value.int y) = Res.ok (Value.int (x % y)) ∧
        0 ≤ x % y ∧ x % y < |y| := by
  intro x y _ _ _ _ hy hne
  have hp : promote (Value.int x) (Value.int y) = .ok (.int x, .int y) := by
    rw [promote.eq_def]; simp [Value.isNil]
  refine ⟨?_, Int.emod_nonneg x hy, Int.emod_lt x hy⟩
  simp only [modulo, hp]
  simp [hy]
  intro h1 h2
  exact hne ⟨by omega, h2⟩

/-- C4 (witness): the amended theorem applied at `x = -7`, `y = 3`:
`(-7) mod 3 = 2` with `0 ≤ 2 < 3`. -/
theorem C4_witness :
    modulo (Value.int (-7)) (Value.int 3) = Res.ok (Value.int 2) ∧
      (0 : Int) ≤ 2 ∧ (2 : Int) < 3 := by
  have h := C4_euclidean_modulo (-7) 3 (by omega) (by omega) (by omega)
    (by omega) (by omega) (by omega)
  norm_num at h
  exact ⟨h, by norm_num, by norm_num⟩

/-- C5: evaluation of `power` at the failing input `(Int 2, Int 63)`.  The
claim (and the spec's intent, which the source itself flags with an
`ERROR`/`TODO` overflow comment) requires `Ok (Int 2^63)`; the code computes
`2^63` in `u64` and casts it with `as i64`, which wraps to `-2^63`. -/
theorem C5_power_overflow_failing_input :
    power (Value.int 2) (Value.int 63) = Res.ok (Value.int (-(2 ^ 63))) ∧
      (-(2 ^ 63) : Int) ≠ 2 ^ 63 := by
  constructor
  · simp [power, promote.eq_def, Value.isNil, u64ToI64]
  · norm_num

/-! ### Bytecode compiler (`vm/src/compiler/code_gen.rs`)

The AST below is the fragment of the external parser's `Expr`/`Stmt`
contract (spec §6) whose compilation is fully contained in `code_gen.rs`;
the constructs compiled in the missing submodules `conditionals.rs` and
`function.rs` (calls, logical ops, if/while/for, break/continue/return,
blocks, function definitions) and `Match` (unknown payload) are omitted.
-/

/-- Source location (`parser::CodeLoc`; the parser crate is external per
spec §1 — locations are carried, never inspected). -/
abbrev CodeLoc := Nat

/-- Embedding of `CodeRange` (spec §3): a pair of source locations, attached to every
emitted instruction. -/
structure CodeRange where
  startLoc : CodeLoc
  endLoc : CodeLoc
deriving DecidableEq

/-- Embedding of `CodeRange::from_locs`. -/
def CodeRange.from_locs (s e : CodeLoc) : CodeRange := ⟨s, e⟩

/-- Embedding of `CodeRange::from_ints(0, 0, 0, 0, 0, 0)`, the dummy range given to the
implicit Nil pushed for an omitted optional expression. -/
def CodeRange.zero : CodeRange := ⟨0, 0⟩

/-- The VM opcode set.  Modelled from the spec: the full `OpCode` enum lives
in the missing compiler module (the `bytecode.rs` under `src/` holds only a
stub); spec §4.4 tabulates the variants `code_gen.rs` references. -/
inductive OpCode where
  | ConstantPush | Nil | EmptyPointer | Discard | Drop
  | ReadLocal | AssignLocal | ReadPointer | AssignPointer
  | ReadUpValue | AssignUpValue | ReadGlobal | AssignGlobal
  | Add | Subtract | Multiply | Divide | Modulo | Power | Negate | Not
  | Equality | NonEquality | LessThan | LessEqual | GreaterThan | GreaterEqual
  | ReadAtIndex | AssignAtIndex | ReadAtSlice
  | ListFromValues | ListFromSlice
  | Jump | JumpIfFalse | JumpIfTrue | JumpIfFalseKeep
  | Call | Return | Closure
deriving DecidableEq

/-- One byte of a chunk's code stream: an opcode byte or a raw `u8`
operand. -/
inductive CByte where
  | op : OpCode → CByte
  | u8 : Nat → CByte
deriving DecidableEq

/-- Embedding of `Chunk` (spec §3): append-only code bytes, a parallel array of
`CodeRange` keyed by instruction, and a constant pool.  Modelled from the
spec: `chunk.rs` is not under `src/`. -/
structure Chunk where
  code : List CByte
  ranges : List CodeRange
  constants : List Value

/-- Embedding of `Chunk::push_opcode`: append an opcode byte together with its source
range. -/
def Chunk.push_opcode (c : Chunk) (o : OpCode) (r : CodeRange) : Chunk :=
  { c with code := c.code ++ [.op o], ranges := c.ranges ++ [r] }

/-- Embedding of `Chunk::push_u8_offset`: append a raw byte operand (the parameter is a
`u8`, hence the `% 256`). -/
def Chunk.push_u8_offset (c : Chunk) (n : Nat) : Chunk :=
  { c with code := c.code ++ [.u8 (n % 256)] }

/-- Embedding of `Chunk::push_constant_plus`: add `v` to the constant pool and emit
`ConstantPush` with the pool index (spec §3/§4.4). -/
def Chunk.push_constant_plus (c : Chunk) (v : Value) (r : CodeRange) : Chunk :=
  { code := c.code ++ [.op .ConstantPush, .u8 (c.constants.length % 256)],
    ranges := c.ranges ++ [r],
    constants := c.constants ++ [v] }

/-- Embedding of `parser::BinOper`. -/
inductive BinOper where
  | Add | Sub | Div | Mult | Mod | Pow
  | Eq | Neq | Lt | Leq | Gt | Geq | Append
deriving DecidableEq

/-- Embedding of `parser::UnOper`. -/
inductive UnOper where
  | Not | Sub
deriving DecidableEq

/-- Embedding of `binop_opcode_conv` (code_gen.rs 380–396); `none` models the `todo!()`
panic on `Append`. -/
def binop_opcode_conv : BinOper → Option OpCode
  | .Add => some .Add
  | .Sub => some .Subtract
  | .Div => some .Divide
  | .Mult => some .Multiply
  | .Mod => some .Modulo
  | .Pow => some .Power
  | .Eq => some .Equality
  | .Neq => some .NonEquality
  | .Lt => some .LessThan
  | .Leq => some .LessEqual
  | .Gt => some .GreaterThan
  | .Geq => some .GreaterEqual
  | .Append => none

/-- Embedding of `unop_opcode_conv` (code_gen.rs 398–403). -/
def unop_opcode_conv : UnOper → OpCode
  | .Not => .Not
  | .Sub => .Negate

mutual

/-- Embedding of `parser::Expr` (the fragment compiled inside `code_gen.rs`). -/
inductive Expr where
  | indexInto : ExprNode → Index → Expr
  | binary : ExprNode → BinOper → ExprNode → Expr
  | unary : UnOper → ExprNode → Expr
  | assign : LValue → ExprNode → Expr
  | var : String → Expr
  | int : Int → Expr
  | float : Rat → Expr
  | bool : Bool → Expr
  | string : String → Expr
  | nil : Expr
  | list : ListContent → Expr
  | tuple : List ExprNode → Expr

/-- Embedding of `parser::ExprNode`: an expression with its source locations. -/
inductive ExprNode where
  | mk : Expr → CodeLoc → CodeLoc → ExprNode

/-- Embedding of `parser::LValue`. -/
inductive LValue where
  | var : String → LValue
  | index : ExprNode → Index → LValue
  | tuple : List LValue → LValue
  | constant : Value → LValue

/-- Embedding of `parser::Index`: index by single position or by slice. -/
inductive Index where
  | at' : ExprNode → Index
  | slice : Slice → Index

/-- Embedding of `parser::Slice`: optional start/stop/step expressions. -/
inductive Slice where
  | mk : Option ExprNode → Option ExprNode → Option ExprNode → Slice

/-- Embedding of `parser::ListContent`: explicit elements or a range. -/
inductive ListContent where
  | exprs : List ExprNode → ListContent
  | range : Slice → ListContent

end

/-- Embedding of `parser::Stmt` (spec §6): declaration, expression statement, or the
parser's `Invalid` recovery variant. -/
inductive Stmt where
  | decl : LValue → Option ExprNode → Stmt
  | expr : ExprNode → Stmt
  | invalid : Stmt

/-- Embedding of `parser::StmtNode`: a statement with its source locations. -/
inductive StmtNode where
  | mk : Stmt → CodeLoc → CodeLoc → StmtNode

/-- Compile-time state of one `Compiler`.  Modelled from the spec:
`vm/src/compiler/mod.rs` and `locals.rs` are not under `src/`; spec §3
describes locals as ordered `(name, is_pointer)` scopes (shadowing,
innermost first — newest entries are consulted first), upvalues and globals
as dense name→slot maps, the static analyzer's captured-name attributes,
and §4.5 the `had_error` flag. -/
structure Compiler where
  locals : List (String × Nat × Bool)
  upvalues : List (String × Nat)
  globals : List (String × Nat)
  attr_upvalue_names : List String
  is_global_scope : Bool
  had_error : Bool

/-- Embedding of `Locals::get_local`: offset and pointer-flag of the innermost local
with this name. -/
def Compiler.get_local (c : Compiler) (name : String) : Option (Nat × Bool) :=
  c.locals.lookup name

/-- Embedding of `Locals::get_upvalue`: dense upvalue index for a captured name. -/
def Compiler.get_upvalue (c : Compiler) (name : String) : Option Nat :=
  c.upvalues.lookup name

/-- Embedding of `self.globals.get(name)`: dense global slot. -/
def Compiler.get_global (c : Compiler) (name : String) : Option Nat :=
  c.globals.lookup name

/-- Embedding of `Locals::add_local`: append a local at the next stack offset, returning
that offset. -/
def Compiler.add_local (c : Compiler) (name : String) (pointer : Bool) :
    Compiler × Nat :=
  ({ c with locals := (name, c.locals.length, pointer) :: c.locals },
   c.locals.length)

/-- Embedding of `Compiler::is_global`: are we at top-level scope? -/
def Compiler.is_global (c : Compiler) : Bool := c.is_global_scope

/-- Outcome of one compile call: `CompRes = Result<(), String>`, plus a
`panicked` alternative for the `todo!()`/`panic!` paths. -/
inductive CStatus where
  | ok : CStatus
  | err : String → CStatus
  | panicked : String → CStatus
deriving DecidableEq

/-- A compile step's result: the (mutated) compiler and chunk plus the
outcome.  On `err` and `panicked` the mutations made before the failure are
kept, matching the Rust `&mut` parameters. -/
structure CompResult where
  comp : Compiler
  chunk : Chunk
  status : CStatus

/-- Rust's `?` operator: continue from the mutated state on Ok,
short-circuit otherwise. -/
def CompResult.seq (r : CompResult) (f : Compiler → Chunk → CompResult) :
    CompResult :=
  match r.status with
  | .ok => f r.comp r.chunk
  | _ => r

theorem sizeOf_index_pos (i : Index) : 0 < sizeOf i := by
  cases i <;> simp_arith

/-- Embedding of `declare_local` (code_gen.rs 64–95): declare a local, allocating a
`Pointer` cell (with `EmptyPointer; AssignLocal off; Discard` codegen) iff
the static analyzer marked the name as captured. -/
def declare_local (c : Compiler) (lv : LValue) (range : CodeRange) (ch : Chunk)
    (lvalue_top : Bool) : CompResult :=
  match lv with
  | .index _ _ => ⟨c, ch, .panicked "not yet implemented"⟩
  | .var name =>
      if c.attr_upvalue_names.contains name then
        let (c2, offset) := c.add_local name true
        let ch2 := ((ch.push_opcode .EmptyPointer range).push_opcode
            .AssignLocal range).push_u8_offset offset
        ⟨c2, ch2.push_opcode .Discard range, .ok⟩
      else
        let (c2, _) := c.add_local name false
        ⟨c2, ch, .ok⟩
  | .tuple _ => ⟨c, ch, .panicked "not yet implemented"⟩
  | .constant _ =>
      if lvalue_top then ⟨c, ch, .err "Cannot declare a constant"⟩
      else ⟨c, ch, .ok⟩

/-- Embedding of `compile_assign` (code_gen.rs 221–242): assign the topmost temp value to
the named variable — local first, then upvalue, then global; unknown names
fail with "Global var 'n' is not declared". -/
def compile_assign (c : Compiler) (name : String) (range : CodeRange)
    (ch : Chunk) : CompResult :=
  match c.get_local name with
  | some (offset, pointer) =>
      let ch2 :=
        if !pointer then ch.push_opcode .AssignLocal range
        else ch.push_opcode .AssignPointer range
      ⟨c, ch2.push_u8_offset offset, .ok⟩
  | none =>
      match c.get_upvalue name with
      | some offset =>
          ⟨c, (ch.push_opcode .AssignUpValue range).push_u8_offset (offset % 256), .ok⟩
      | none =>
          match c.get_global name with
          | some offset =>
              ⟨c, (ch.push_opcode .AssignGlobal range).push_u8_offset (offset % 256), .ok⟩
          | none => ⟨c, ch, .err ("Global var '" ++ name ++ "' is not declared")⟩

/-- Embedding of `compile_var` (code_gen.rs 255–276): compile the read of a var — local
first, then upvalue, then global; unknown names fail with
"Var 'n' is not declared". -/
def compile_var (c : Compiler) (name : String) (range : CodeRange)
    (ch : Chunk) : CompResult :=
  match c.get_local name with
  | some (offset, pointer) =>
      let ch2 :=
        if !pointer then ch.push_opcode .ReadLocal range
        else ch.push_opcode .ReadPointer range
      ⟨c, ch2.push_u8_offset offset, .ok⟩
  | none =>
      match c.get_upvalue name with
      | some offset =>
          ⟨c, (ch.push_opcode .ReadUpValue range).push_u8_offset (offset % 256), .ok⟩
      | none =>
          match c.get_global name with
          | some offset =>
              ⟨c, (ch.push_opcode .ReadGlobal range).push_u8_offset (offset % 256), .ok⟩
          | none => ⟨c, ch, .err ("Var '" ++ name ++ "' is not declared")⟩

mutual

/-- Embedding of `compile_expression` (code_gen.rs 103–167), restricted to the AST
fragment above; the `String`/`Tuple` arms are the source's `todo!()`s, and
`Binary` with `Append` panics inside `binop_opcode_conv`. -/
def compile_expression (c : Compiler) (ch : Chunk) (e : ExprNode) : CompResult :=
  match e with
  | .mk node sl el =>
    let range := CodeRange.from_locs sl el
    match node with
    | .indexInto base idx => compile_index_into c ch base idx range
    | .binary x op y =>
        (compile_expression c ch x).seq fun c1 ch1 =>
          (compile_expression c1 ch1 y).seq fun c2 ch2 =>
            match binop_opcode_conv op with
            | some oc => ⟨c2, ch2.push_opcode oc range, .ok⟩
            | none => ⟨c2, ch2, .panicked "not yet implemented"⟩
    | .unary op x =>
        (compile_expression c ch x).seq fun c1 ch1 =>
          ⟨c1, ch1.push_opcode (unop_opcode_conv op) range, .ok⟩
    | .assign lv ex => compile_lvalue_assignment c ch lv ex range
    | .var name => compile_var c name range ch
    | .int x => ⟨c, ch.push_constant_plus (Value.int x) range, .ok⟩
    | .float x => ⟨c, ch.push_constant_plus (Value.float x) range, .ok⟩
    | .bool x => ⟨c, ch.push_constant_plus (Value.bool x) range, .ok⟩
    | .string _ => ⟨c, ch, .panicked "not yet implemented"⟩
    | .nil => ⟨c, ch.push_constant_plus Value.nil range, .ok⟩
    | .list lc => compile_list c ch lc range
    | .tuple _ => ⟨c, ch, .panicked "not yet implemented"⟩
termination_by sizeOf e

/-- Embedding of `compile_lvalue_assignment` (code_gen.rs 169–178): compile the value,
then assign it to the lvalue (leaving it on the stack). -/
def compile_lvalue_assignment (c : Compiler) (ch : Chunk) (lv : LValue)
    (e : ExprNode) (range : CodeRange) : CompResult :=
  (compile_expression c ch e).seq fun c1 ch1 =>
    compile_lvalue_stack_assign c1 ch1 lv range
termination_by 1 + sizeOf lv + sizeOf e

/-- Embedding of `compile_lvalue_stack_assign` (code_gen.rs 181–195). -/
def compile_lvalue_stack_assign (c : Compiler) (ch : Chunk) (lv : LValue)
    (range : CodeRange) : CompResult :=
  match lv with
  | .index coll idx => compile_assign_index c ch coll idx range
  | .var name => compile_assign c name range ch
  | .tuple _ => ⟨c, ch, .panicked "not yet implemented"⟩
  | .constant _ => ⟨c, ch, .panicked "not yet implemented"⟩
termination_by sizeOf lv

/-- Embedding of `compile_assign_index` (code_gen.rs 198–218): assignment into
`collection[index]`; slice targets are the source's `todo!`. -/
def compile_assign_index (c : Compiler) (ch : Chunk) (coll : ExprNode)
    (idx : Index) (range : CodeRange) : CompResult :=
  (compile_expression c ch coll).seq fun c1 ch1 =>
    match idx with
    | .at' ea =>
        (compile_expression c1 ch1 ea).seq fun c2 ch2 =>
          ⟨c2, ch2.push_opcode .AssignAtIndex range, .ok⟩
    | .slice _ =>
        ⟨c1, ch1, .panicked
          "not yet implemented: Implement assigning into slice (light pattern matching)"⟩
termination_by sizeOf coll + sizeOf idx
decreasing_by
  all_goals simp_wf
  all_goals try omega
  all_goals (have h := sizeOf_index_pos idx; omega)

/-- Embedding of `compile_opt_expression` (code_gen.rs 245–252): compile the expression,
or push Nil (without location) when absent. -/
def compile_opt_expression (c : Compiler) (ch : Chunk) (oe : Option ExprNode) :
    CompResult :=
  match oe with
  | some e => compile_expression c ch e
  | none => ⟨c, ch.push_constant_plus Value.nil CodeRange.zero, .ok⟩
termination_by sizeOf oe

/-- Embedding of `compile_slice` (code_gen.rs 351–355): start, stop, step in order. -/
def compile_slice (c : Compiler) (ch : Chunk) (s : Slice) : CompResult :=
  match s with
  | .mk start stop step =>
    (compile_opt_expression c ch start).seq fun c1 ch1 =>
      (compile_opt_expression c1 ch1 stop).seq fun c2 ch2 =>
        compile_opt_expression c2 ch2 step
termination_by sizeOf s

/-- Embedding of `compile_index_into` (code_gen.rs 358–377). -/
def compile_index_into (c : Compiler) (ch : Chunk) (base : ExprNode)
    (idx : Index) (range : CodeRange) : CompResult :=
  (compile_expression c ch base).seq fun c1 ch1 =>
    match idx with
    | .at' ea =>
        (compile_expression c1 ch1 ea).seq fun c2 ch2 =>
          ⟨c2, ch2.push_opcode .ReadAtIndex range, .ok⟩
    | .slice sl =>
        (compile_slice c1 ch1 sl).seq fun c2 ch2 =>
          ⟨c2, ch2.push_opcode .ReadAtSlice range, .ok⟩
termination_by sizeOf base + sizeOf idx
decreasing_by
  all_goals simp_wf
  all_goals try omega
  all_goals (have h := sizeOf_index_pos idx; omega)

/-- Embedding of `compile_list` (code_gen.rs 323–346): a literal of more than 255
elements is a compile error (the length is stored in one byte); otherwise
each element is compiled in order and `ListFromValues n` is emitted. -/
def compile_list (c : Compiler) (ch : Chunk) (lc : ListContent)
    (range : CodeRange) : CompResult :=
  match lc with
  | .exprs es =>
      if es.length > 255 then
        ⟨c, ch, .err ("Cannot init list with over 255 values :( This one is "
            ++ toString es.length ++ " long")⟩
      else
        (compile_exprs c ch es).seq fun c1 ch1 =>
          ⟨c1, (ch1.push_opcode .ListFromValues range).push_u8_offset es.length, .ok⟩
  | .range sl =>
      (compile_slice c ch sl).seq fun c1 ch1 =>
        ⟨c1, ch1.push_opcode .ListFromSlice range, .ok⟩
termination_by sizeOf lc

/-- The `for expr in exprs { self.compile_expression(expr, chunk)?; }` loop
of `compile_list`. -/
def compile_exprs (c : Compiler) (ch : Chunk) (es : List ExprNode) : CompResult :=
  match es with
  | [] => ⟨c, ch, .ok⟩
  | e :: rest =>
      (compile_expression c ch e).seq fun c1 ch1 => compile_exprs c1 ch1 rest
termination_by sizeOf es

end

/-- Embedding of `compile_declaration` (code_gen.rs 43–58): at non-global scope declare
the local, then compile and discard the optional initializing assignment. -/
def compile_declaration (c : Compiler) (lv : LValue) (e : Option ExprNode)
    (range : CodeRange) (ch : Chunk) : CompResult :=
  let r1 : CompResult :=
    if !c.is_global then declare_local c lv range ch true else ⟨c, ch, .ok⟩
  r1.seq fun c1 ch1 =>
    match e with
    | some ex =>
        (compile_lvalue_assignment c1 ch1 lv ex range).seq fun c2 ch2 =>
          ⟨c2, ch2.push_opcode .Discard range, .ok⟩
    | none => ⟨c1, ch1, .ok⟩

/-- Embedding of `compile_statement` (code_gen.rs 13–41): declarations and expression
statements have their errors printed and turned into the `had_error` flag
(compilation continues); the `Invalid` variant is a `todo!()` panic. -/
def compile_statement (c : Compiler) (st : StmtNode) (ch : Chunk)
    (output : Bool) : CompResult :=
  match st with
  | .mk node sl el =>
    let range := CodeRange.from_locs sl el
    let r : CompResult :=
      match node with
      | .decl lv e => compile_declaration c lv e range ch
      | .expr e =>
          let r0 := compile_expression c ch e
          match r0.status with
          | .panicked _ => r0
          | _ =>
              if !output then { r0 with chunk := r0.chunk.push_opcode .Discard range }
              else r0
      | .invalid => ⟨c, ch, .panicked "not yet implemented"⟩
    match r.status with
    | .err _ => ⟨{ r.comp with had_error := true }, r.chunk, .ok⟩
    | _ => r

/-! ### Tree-walking back-end driver (`src/interpreter.rs`) -/

/-- Embedding of `RuntimeError` of the tree-walker (src/interpreter.rs 51–56): a located
error, the `break` signal, or the `return(value)` signal.  Parameterized by
the tree-walker's value type (its `Value` lives in the missing
`src/interpreter/expressions.rs`). -/
inductive RuntimeError (V : Type) where
  | Error : CodeLoc → CodeLoc → String → RuntimeError V
  | Break : RuntimeError V
  | Return : V → RuntimeError V

/-- One call made on the external error-reporter sink (spec §6). -/
inductive ReporterEvent where
  | runtime_error : CodeLoc → CodeLoc → String → ReporterEvent
  | runtime_panic : String → ReporterEvent
deriving DecidableEq

/-- Embedding of `interpret` (src/interpreter.rs 28–48): evaluate the statements in
order; a located error goes to `runtime_error` and stops; `Break`/`Return`
signals go to `runtime_panic` with a propagated-to-top-level diagnostic.
Parameterized by `statements::eval` (in the missing
`src/interpreter/statements.rs`) and by `Value::stringify` (spec §4.1).
The result is the list of calls made on the reporter; modelled from the
spec: both reporter sinks are "terminal for the current program" (§6), so
nothing runs after either call. -/
def interpret {α V : Type} (eval : α → Except (RuntimeError V) V)
    (stringify : V → String) (program : List α) : List ReporterEvent :=
  match program with
  | [] => []
  | stmt :: rest =>
    match eval stmt with
    | .ok _ => interpret eval stringify rest
    | .error (.Error start stop reason) => [.runtime_error start stop reason]
    | .error .Break => [.runtime_panic "Break propagated to top-level scope"]
    | .error (.Return v) =>
        [.runtime_panic ("Return " ++ stringify v ++ " propagated to top-level scope")]

theorem interpret_append_ok {α V : Type} (eval : α → Except (RuntimeError V) V)
    (stringify : V → String) (pre l : List α)
    (h : ∀ p ∈ pre, ∃ v, eval p = .ok v) :
    interpret eval stringify (pre ++ l) = interpret eval stringify l := by
  induction pre with
  | nil => rfl
  | cons p pre ih =>
      obtain ⟨v, hv⟩ := h p (by simp)
      rw [List.cons_append, interpret, hv]
      exact ih fun q hq => h q (by simp [hq])

/-- C6 (counterexample): when an assigned name resolves to none of locals,
upvalues and globals, `compile_assign` fails with
"Global var 'n' is not declared" — not the claim's
"Var 'n' is not declared" (which only `compile_var` produces). -/
theorem C6_counterexample :
    compile_assign ⟨[], [], [], [], true, false⟩ "n" ⟨0, 0⟩ ⟨[], [], []⟩
      ≠ CompResult.mk ⟨[], [], [], [], true, false⟩ ⟨[], [], []⟩
          (.err "Var 'n' is not declared") := by
  have hstat : (compile_assign ⟨[], [], [], [], true, false⟩ "n" ⟨0, 0⟩
      ⟨[], [], []⟩).status = .err "Global var 'n' is not declared" := rfl
  intro h
  rw [h] at hstat
  injection hstat with h2
  exact absurd h2 (by decide)

/-- C6 (amended): both variable reads (`compile_var`) and assignments
(`compile_assign`) resolve a name by the priority locals → upvalues →
globals, emitting the matching opcode with its slot byte; when the name is
in none of the three, a read fails with "Var 'n' is not declared" while an
assignment fails with "Global var 'n' is not declared". -/
theorem C6_name_resolution :
    ∀ (c : Compiler) (ch : Chunk) (name : String) (r : CodeRange),
      (∀ offset pointer, c.get_local name = some (offset, pointer) →
        compile_var c name r ch
            = ⟨c, (if !pointer then ch.push_opcode .ReadLocal r
                   else ch.push_opcode .ReadPointer r).push_u8_offset offset, .ok⟩
          ∧ compile_assign c name r ch
            = ⟨c, (if !pointer then ch.push_opcode .AssignLocal r
                   else ch.push_opcode .AssignPointer r).push_u8_offset offset, .ok⟩) ∧
      (∀ offset, c.get_local name = none → c.get_upvalue name = some offset →
        compile_var c name r ch
            = ⟨c, (ch.push_opcode .ReadUpValue r).push_u8_offset (offset % 256), .ok⟩
          ∧ compile_assign c name r ch
            = ⟨c, (ch.push_opcode .AssignUpValue r).push_u8_offset (offset % 256), .ok⟩) ∧
      (∀ offset, c.get_local name = none → c.get_upvalue name = none →
          c.get_global name = some offset →
        compile_var c name r ch
            = ⟨c, (ch.push_opcode .ReadGlobal r).push_u8_offset (offset % 256), .ok⟩
          ∧ compile_assign c name r ch
            = ⟨c, (ch.push_opcode .AssignGlobal r).push_u8_offset (offset % 256), .ok⟩) ∧
      (c.get_local name = none → c.get_upvalue name = none →
          c.get_global name = none →
        compile_var c name r ch
            = ⟨c, ch, .err ("Var '" ++ name ++ "' is not declared")⟩
          ∧ compile_assign c name r ch
            = ⟨c, ch, .err ("Global var '" ++ name ++ "' is not declared")⟩) := by
  intro c ch name r
  refine ⟨fun offset pointer h1 => ⟨?_, ?_⟩,
          fun offset h1 h2 => ⟨?_, ?_⟩,
          fun offset h1 h2 h3 => ⟨?_, ?_⟩,
          fun h1 h2 h3 => ⟨?_, ?_⟩⟩ <;>
    simp [compile_var, compile_assign, *]

/-- C6 (witness): the amended theorem applied at a concrete compiler state
with local "l" (flat, offset 3), upvalue "u" (index 9), global "g" (slot 7),
and the undeclared name "x". -/
theorem C6_witness :
    (compile_var ⟨[("l", 3, false)], [("u", 9)], [("g", 7)], [], false, false⟩
        "l" ⟨0, 0⟩ ⟨[], [], []⟩
      = ⟨⟨[("l", 3, false)], [("u", 9)], [("g", 7)], [], false, false⟩,
         ⟨[.op .ReadLocal, .u8 3], [⟨0, 0⟩], []⟩, .ok⟩) ∧
    (compile_assign ⟨[("l", 3, false)], [("u", 9)], [("g", 7)], [], false, false⟩
        "l" ⟨0, 0⟩ ⟨[], [], []⟩
      = ⟨⟨[("l", 3, false)], [("u", 9)], [("g", 7)], [], false, false⟩,
         ⟨[.op .AssignLocal, .u8 3], [⟨0, 0⟩], []⟩, .ok⟩) ∧
    (compile_var ⟨[("l", 3, false)], [("u", 9)], [("g", 7)], [], false, false⟩
        "u" ⟨0, 0⟩ ⟨[], [], []⟩
      = ⟨⟨[("l", 3, false)], [("u", 9)], [("g", 7)], [], false, false⟩,
         ⟨[.op .ReadUpValue, .u8 9], [⟨0, 0⟩], []⟩, .ok⟩) ∧
    (compile_assign ⟨[("l", 3, false)], [("u", 9)], [("g", 7)], [], false, false⟩
        "u" ⟨0, 0⟩ ⟨[], [], []⟩
      = ⟨⟨[("l", 3, false)], [("u", 9)], [("g", 7)], [], false, false⟩,
         ⟨[.op .AssignUpValue, .u8 9], [⟨0, 0⟩], []⟩, .ok⟩) ∧
    (compile_var ⟨[("l", 3, false)], [("u", 9)], [("g", 7)], [], false, false⟩
        "g" ⟨0, 0⟩ ⟨[], [], []⟩
      = ⟨⟨[("l", 3, false)], [("u", 9)], [("g", 7)], [], false, false⟩,
         ⟨[.op .ReadGlobal, .u8 7], [⟨0, 0⟩], []⟩, .ok⟩) ∧
    (compile_assign ⟨[("l", 3, false)], [("u", 9)], [("g", 7)], [], false, false⟩
        "g" ⟨0, 0⟩ ⟨[], [], []⟩
      = ⟨⟨[("l", 3, false)], [("u", 9)], [("g", 7)], [], false, false⟩,
         ⟨[.op .AssignGlobal, .u8 7], [⟨0, 0⟩], []⟩, .ok⟩) ∧
    (compile_var ⟨[("l", 3, false)], [("u", 9)], [("g", 7)], [], false, false⟩
        "x" ⟨0, 0⟩ ⟨[], [], []⟩
      = ⟨⟨[("l", 3, false)], [("u", 9)], [("g", 7)], [], false, false⟩,
         ⟨[], [], []⟩, .err "Var 'x' is not declared"⟩) ∧
    (compile_assign ⟨[("l", 3, false)], [("u", 9)], [("g", 7)], [], false, false⟩
        "x" ⟨0, 0⟩ ⟨[], [], []⟩
      = ⟨⟨[("l", 3, false)], [("u", 9)], [("g", 7)], [], false, false⟩,
         ⟨[], [], []⟩, .err "Global var 'x' is not declared"⟩) := by
  refine ⟨?_, ?_, ?_, ?_, ?_, ?_, ?_, ?_⟩
  · have h := (C6_name_resolution ⟨[("l", 3, false)], [("u", 9)], [("g", 7)], [],
      false, false⟩ ⟨[], [], []⟩ "l" ⟨0, 0⟩).1 3 false (by decide)
    simpa [Chunk.push_opcode, Chunk.push_u8_offset] using h.1
  · have h := (C6_name_resolution ⟨[("l", 3, false)], [("u", 9)], [("g", 7)], [],
      false, false⟩ ⟨[], [], []⟩ "l" ⟨0, 0⟩).1 3 false (by decide)
    simpa [Chunk.push_opcode, Chunk.push_u8_offset] using h.2
  · have h := (C6_name_resolution ⟨[("l", 3, false)], [("u", 9)], [("g", 7)], [],
      false, false⟩ ⟨[], [], []⟩ "u" ⟨0, 0⟩).2.1 9 (by decide) (by decide)
    simpa [Chunk.push_opcode, Chunk.push_u8_offset] using h.1
  · have h := (C6_name_resolution ⟨[("l", 3, false)], [("u", 9)], [("g", 7)], [],
      false, false⟩ ⟨[], [], []⟩ "u" ⟨0, 0⟩).2.1 9 (by decide) (by decide)
    simpa [Chunk.push_opcode, Chunk.push_u8_offset] using h.2
  · have h := (C6_name_resolution ⟨[("l", 3, false)], [("u", 9)], [("g", 7)], [],
      false, false⟩ ⟨[], [], []⟩ "g" ⟨0, 0⟩).2.2.1 7 (by decide) (by decide) (by decide)
    simpa [Chunk.push_opcode, Chunk.push_u8_offset] using h.1
  · have h := (C6_name_resolution ⟨[("l", 3, false)], [("u", 9)], [("g", 7)], [],
      false, false⟩ ⟨[], [], []⟩ "g" ⟨0, 0⟩).2.2.1 7 (by decide) (by decide) (by decide)
    simpa [Chunk.push_opcode, Chunk.push_u8_offset] using h.2
  · have h := (C6_name_resolution ⟨[("l", 3, false)], [("u", 9)], [("g", 7)], [],
      false, false⟩ ⟨[], [], []⟩ "x" ⟨0, 0⟩).2.2.2 (by decide) (by decide) (by decide)
    exact h.1
  · have h := (C6_name_resolution ⟨[("l", 3, false)], [("u", 9)], [("g", 7)], [],
      false, false⟩ ⟨[], [], []⟩ "x" ⟨0, 0⟩).2.2.2 (by decide) (by decide) (by decide)
    exact h.2

/-- C7: a list literal of more than 255 explicit elements is rejected with
a compile error before anything is emitted (the chunk is returned
unchanged, so no `ListFromValues` is emitted); otherwise the elements are
compiled in order (the `compile_exprs` fold) and `ListFromValues n` is
emitted with the element count `n` as the one-byte operand. -/
theorem C7_list_literal :
    ∀ (c : Compiler) (ch : Chunk) (es : List ExprNode) (r : CodeRange),
      (es.length > 255 →
        compile_list c ch (ListContent.exprs es) r
          = ⟨c, ch, .err ("Cannot init list with over 255 values :( This one is "
              ++ toString es.length ++ " long")⟩) ∧
      (es.length ≤ 255 →
        ∀ c1 ch1, compile_exprs c ch es = ⟨c1, ch1, .ok⟩ →
          compile_list c ch (ListContent.exprs es) r
            = ⟨c1, (ch1.push_opcode .ListFromValues r).push_u8_offset es.length,
                .ok⟩) := by
  intro c ch es r
  constructor
  · intro h
    rw [compile_list]
    simp [h]
  · intro h c1 ch1 hseq
    rw [compile_list]
    simp [Nat.not_lt.mpr h, hseq, CompResult.seq]

/-- C7 (witness): the theorem applied to the two-element literal
`[1, 2]` (each element a constant push) and to a 256-element literal of
Nil expressions (rejected, chunk unchanged). -/
theorem C7_witness :
    compile_list ⟨[], [], [], [], true, false⟩ ⟨[], [], []⟩
        (ListContent.exprs [ExprNode.mk (Expr.int 1) 0 0, ExprNode.mk (Expr.int 2) 0 0])
        ⟨0, 0⟩
      = ⟨⟨[], [], [], [], true, false⟩,
         ⟨[.op .ConstantPush, .u8 0, .op .ConstantPush, .u8 1,
           .op .ListFromValues, .u8 2],
          [⟨0, 0⟩, ⟨0, 0⟩, ⟨0, 0⟩], [Value.int 1, Value.int 2]⟩, .ok⟩ ∧
    compile_list ⟨[], [], [], [], true, false⟩ ⟨[], [], []⟩
        (ListContent.exprs (List.replicate 256 (ExprNode.mk Expr.nil 0 0))) ⟨0, 0⟩
      = ⟨⟨[], [], [], [], true, false⟩, ⟨[], [], []⟩,
         .err "Cannot init list with over 255 values :( This one is 256 long"⟩ := by
  constructor
  · have h := (C7_list_literal ⟨[], [], [], [], true, false⟩ ⟨[], [], []⟩
        [ExprNode.mk (Expr.int 1) 0 0, ExprNode.mk (Expr.int 2) 0 0] ⟨0, 0⟩).2
      (by norm_num)
      ⟨[], [], [], [], true, false⟩
      ⟨[.op .ConstantPush, .u8 0, .op .ConstantPush, .u8 1],
       [⟨0, 0⟩, ⟨0, 0⟩], [Value.int 1, Value.int 2]⟩
      (by rw [compile_exprs, compile_expression]
          simp [CompResult.seq, Chunk.push_constant_plus, CodeRange.from_locs]
          rw [compile_exprs, compile_expression]
          simp [CompResult.seq, Chunk.push_constant_plus, CodeRange.from_locs]
          rw [compile_exprs])
    simpa [Chunk.push_opcode, Chunk.push_u8_offset] using h
  · have hlen : (List.replicate 256 (ExprNode.mk Expr.nil 0 0)).length = 256 := by
      rw [List.length_replicate]
    have h := (C7_list_literal ⟨[], [], [], [], true, false⟩ ⟨[], [], []⟩
        (List.replicate 256 (ExprNode.mk Expr.nil 0 0)) ⟨0, 0⟩).1
      (by rw [hlen]; omega)
    rw [hlen] at h
    have hs : ("Cannot init list with over 255 values :( This one is "
          ++ toString (256 : Nat) ++ " long")
        = "Cannot init list with over 255 values :( This one is 256 long" := by
      decide
    rw [hs] at h
    exact h

/-- C9: `compile_statement` on a `Stmt::Invalid` node hits `todo!()` — the
whole call panics ("not yet implemented"), returning no best-effort result:
no compile error is reported and the `had_error` flag is left exactly as it
was, for every compiler state, chunk, location and output mode. -/
theorem C9_invalid_statement_panics :
    ∀ (c : Compiler) (ch : Chunk) (sl el : CodeLoc) (output : Bool),
      compile_statement c (StmtNode.mk Stmt.invalid sl el) ch output
        = ⟨c, ch, .panicked "not yet implemented"⟩ ∧
      (compile_statement c (StmtNode.mk Stmt.invalid sl el) ch output).comp.had_error
        = c.had_error :=
  fun c ch sl el output => ⟨rfl, rfl⟩

/-- C10: global slots are emitted as a single byte.  Whenever a name misses
locals and upvalues and resolves to global slot `s`, the emitted operand of
`ReadGlobal`/`AssignGlobal` is `s % 256` (`as u8`), the compile succeeds,
and any two globals whose slots are congruent mod 256 — e.g. slot `s ≥ 256`
and slot `s - 256` — compile to identical read and assignment code, with no
error of any kind. -/
theorem C10_global_slot_narrowing :
    ∀ (c : Compiler) (ch : Chunk) (n1 n2 : String) (s1 s2 : Nat) (r : CodeRange),
      c.get_local n1 = none → c.get_upvalue n1 = none → c.get_global n1 = some s1 →
      c.get_local n2 = none → c.get_upvalue n2 = none → c.get_global n2 = some s2 →
      s1 % 256 = s2 % 256 →
      compile_var c n1 r ch
          = ⟨c, (ch.push_opcode .ReadGlobal r).push_u8_offset (s1 % 256), .ok⟩ ∧
      compile_var c n1 r ch = compile_var c n2 r ch ∧
      compile_assign c n1 r ch = compile_assign c n2 r ch := by
  intro c ch n1 n2 s1 s2 r h1 h2 h3 h4 h5 h6 h7
  have hb : s1 % 256 % 256 = s2 % 256 % 256 := by omega
  refine ⟨?_, ?_, ?_⟩ <;>
    simp [compile_var, compile_assign, h1, h2, h3, h4, h5, h6,
      Chunk.push_u8_offset, hb]

/-- C10 (witness): with globals `"a" ↦ 261` and `"b" ↦ 5`, reading or
assigning `"a"` emits `ReadGlobal 5`/`AssignGlobal 5`, identical to the
code for `"b"` — slot 261 is silently aliased to slot 5. -/
theorem C10_witness :
    compile_var ⟨[], [], [("a", 261), ("b", 5)], [], true, false⟩ "a" ⟨0, 0⟩
        ⟨[], [], []⟩
      = ⟨⟨[], [], [("a", 261), ("b", 5)], [], true, false⟩,
         ⟨[.op .ReadGlobal, .u8 5], [⟨0, 0⟩], []⟩, .ok⟩ ∧
    compile_var ⟨[], [], [("a", 261), ("b", 5)], [], true, false⟩ "a" ⟨0, 0⟩
        ⟨[], [], []⟩
      = compile_var ⟨[], [], [("a", 261), ("b", 5)], [], true, false⟩ "b" ⟨0, 0⟩
          ⟨[], [], []⟩ ∧
    compile_assign ⟨[], [], [("a", 261), ("b", 5)], [], true, false⟩ "a" ⟨0, 0⟩
        ⟨[], [], []⟩
      = compile_assign ⟨[], [], [("a", 261), ("b", 5)], [], true, false⟩ "b" ⟨0, 0⟩
          ⟨[], [], []⟩ := by
  have h := C10_global_slot_narrowing
    ⟨[], [], [("a", 261), ("b", 5)], [], true, false⟩ ⟨[], [], []⟩
    "a" "b" 261 5 ⟨0, 0⟩ (by decide) (by decide) (by decide)
    (by decide) (by decide) (by decide) (by decide)
  refine ⟨?_, h.2.1, h.2.2⟩
  simpa [Chunk.push_opcode, Chunk.push_u8_offset] using h.1

/-- C8: in the tree-walking back-end, a top-level statement evaluating to
`Err(Break)` makes `interpret` call `runtime_panic` with
"Break propagated to top-level scope", one evaluating to `Err(Return v)`
calls `runtime_panic` with "Return <v> propagated to top-level scope", and
one evaluating to a located `Err(Error(start, end, msg))` goes to
`runtime_error` with that location and message — in every case nothing
further runs (the statements after it are never evaluated), and the signal
is never silently ignored. -/
theorem C8_top_level_signals :
    ∀ {α V : Type} (eval : α → Except (RuntimeError V) V) (stringify : V → String)
      (pre : List α) (s : α) (rest : List α),
      (∀ p ∈ pre, ∃ v, eval p = .ok v) →
      ((eval s = .error .Break →
          interpret eval stringify (pre ++ s :: rest)
            = [.runtime_panic "Break propagated to top-level scope"]) ∧
       (∀ v, eval s = .error (.Return v) →
          interpret eval stringify (pre ++ s :: rest)
            = [.runtime_panic ("Return " ++ stringify v
                ++ " propagated to top-level scope")]) ∧
       (∀ start stop reason, eval s = .error (.Error start stop reason) →
          interpret eval stringify (pre ++ s :: rest)
            = [.runtime_error start stop reason])) := by
  intro α V eval stringify pre s rest hpre
  refine ⟨fun h => ?_, fun v h => ?_, fun start stop reason h => ?_⟩ <;>
    rw [interpret_append_ok eval stringify pre _ hpre, interpret, h]

/-- C8 (witness): the theorem applied with empty prefix and concrete
evaluators on one-statement (plus, for the located error, one trailing
never-reached statement) programs. -/
theorem C8_witness :
    interpret (fun _ : Unit => Except.error (RuntimeError.Break (V := Unit)))
        (fun _ => "nil") [()]
      = [.runtime_panic "Break propagated to top-level scope"] ∧
    interpret (fun _ : Unit => Except.error (RuntimeError.Return ()))
        (fun _ => "nil") [()]
      = [.runtime_panic "Return nil propagated to top-level scope"] ∧
    interpret (fun _ : Unit => Except.error
          (RuntimeError.Error (V := Unit) 1 2 "boom"))
        (fun _ => "nil") [(), ()]
      = [.runtime_error 1 2 "boom"] := by
  refine ⟨?_, ?_, ?_⟩
  · exact (C8_top_level_signals (fun _ : Unit => Except.error RuntimeError.Break)
      (fun _ => "nil") [] () [] (by simp)).1 rfl
  · exact (C8_top_level_signals (fun _ : Unit => Except.error (RuntimeError.Return ()))
      (fun _ => "nil") [] () [] (by simp)).2.1 () rfl
  · exact (C8_top_level_signals
      (fun _ : Unit => Except.error (RuntimeError.Error (V := Unit) 1 2 "boom"))
      (fun _ => "nil") [] () [()] (by simp)).2.2 1 2 "boom" rfl

end Zote
